import Mathlib

/-!
Verification of the backup/archive lifecycle pipeline of `function_app.py`.

The object store (Azure blob storage, an external collaborator) is embedded
as a function from (container, key) to an optional blob; each client call the
source makes (copy, stat, download, upload, delete) is a small total function
that can also be made to fail at a given (operation, container, key) through
an explicit fault table, modelling the store raising an exception there.
`process_single_file` and `backup_function` are translated statement by
statement from `src/function_app.py`.
-/

namespace FileBackup

/-- Blob data as modelled: raw content bytes plus the `creation_time`
property the source reads via `get_blob_properties()`.  Timestamps are
integer seconds since the epoch; `timedelta(days = d)` is `d * 86400`. -/
structure Blob where
  content : List Nat
  creationTime : Int
deriving Repr, DecidableEq

/-- The store: a map from container name and blob name to an optional blob. -/
def Store : Type := String → String → Option Blob

/-- The empty store. -/
def emptyStore : Store := fun _ _ => none

/-- Write (create or overwrite) a blob. -/
def putBlob (st : Store) (c k : String) (b : Blob) : Store :=
  fun c' k' => if c' = c ∧ k' = k then some b else st c' k'

/-- Remove a blob. -/
def delBlob (st : Store) (c k : String) : Store :=
  fun c' k' => if c' = c ∧ k' = k then none else st c' k'

/-- The store operations the source invokes on the blob service client. -/
inductive StoreOp where
  | copy | stat | download | upload | delete
deriving Repr, DecidableEq

/-- Errors the store can raise: `NotFound` for an absent blob, `transient`
for a network/service fault. -/
inductive StoreErr where
  | notFound | transient
deriving Repr, DecidableEq

/-- One injected fault: the named operation on the named (container, key)
raises the given error. -/
structure Fault where
  op : StoreOp
  container : String
  key : String
  err : StoreErr
deriving Repr, DecidableEq

/-- Fault lookup: the error injected for this call, if any. -/
def faulted (fs : List Fault) (op : StoreOp) (c k : String) : Option StoreErr :=
  (fs.find? (fun f => decide (f.op = op ∧ f.container = c ∧ f.key = k))).map (·.err)

/-- Client call `backup_blob.start_copy_from_url(source_blob.url)`: copy the
source blob to the destination; the copy creates the destination blob, so its
`creation_time` is the copy time `now`. -/
def copyBlob (fs : List Fault) (st : Store) (srcC srcK dstC dstK : String)
    (now : Int) : Except StoreErr Store :=
  match faulted fs .copy dstC dstK with
  | some e => .error e
  | none =>
    match st srcC srcK with
    | none => .error .notFound
    | some b => .ok (putBlob st dstC dstK { content := b.content, creationTime := now })

/-- Client call `get_blob_properties()`: stat a blob. -/
def statBlob (fs : List Fault) (st : Store) (c k : String) : Except StoreErr Blob :=
  match faulted fs .stat c k with
  | some e => .error e
  | none =>
    match st c k with
    | none => .error .notFound
    | some b => .ok b

/-- Client call `download_blob().readall()`: read a blob's content. -/
def downloadBlob (fs : List Fault) (st : Store) (c k : String) :
    Except StoreErr (List Nat) :=
  match faulted fs .download c k with
  | some e => .error e
  | none =>
    match st c k with
    | none => .error .notFound
    | some b => .ok b.content

/-- Client call `upload_blob(content, overwrite=True)`: write a blob,
overwriting any existing one. -/
def uploadBlob (fs : List Fault) (st : Store) (c k : String) (content : List Nat)
    (now : Int) : Except StoreErr Store :=
  match faulted fs .upload c k with
  | some e => .error e
  | none => .ok (putBlob st c k { content := content, creationTime := now })

/-- Client call `delete_blob()`: delete a blob; raises `NotFound` when the
blob is absent. -/
def deleteBlob (fs : List Fault) (st : Store) (c k : String) : Except StoreErr Store :=
  match faulted fs .delete c k with
  | some e => .error e
  | none =>
    match st c k with
    | none => .error .notFound
    | some _ => .ok (delBlob st c k)

/-! The compressor.  The source calls `gzip.compress` / (inverse)
`gzip.decompress` from the Python standard library; that library's code is
not part of this repository.  Modelled from the spec: a self-describing
standard stream-compression format — embedded here as the gzip container
format (RFC 1952) carrying stored (type-00) DEFLATE blocks, with the CRC32
and length trailer computed and verified exactly as the format prescribes. -/

/-- A 16-bit value as two little-endian bytes. -/
def le16 (n : Nat) : List Nat := [n % 256, n / 256 % 256]

/-- A 32-bit value as four little-endian bytes. -/
def le32 (n : Nat) : List Nat :=
  [n % 256, n / 256 % 256, n / 65536 % 256, n / 16777216 % 256]

/-- One step of the bitwise CRC32 computation (polynomial 0xEDB88320). -/
def crc32Round (c : Nat) : Nat :=
  if c % 2 = 1 then (c / 2) ^^^ 0xEDB88320 else c / 2

/-- Fold one byte into the CRC32 state. -/
def crc32Byte (c b : Nat) : Nat :=
  (List.range 8).foldl (fun acc _ => crc32Round acc) (c ^^^ b % 256)

/-- CRC32 checksum of a byte sequence. -/
def crc32 (x : List Nat) : Nat :=
  (x.foldl crc32Byte 0xFFFFFFFF) ^^^ 0xFFFFFFFF

/-- The DEFLATE body using stored blocks: each block is a header byte
(BFINAL flag, BTYPE = 00), the payload length and its ones-complement as
little-endian 16-bit values, then the raw payload (at most 65535 bytes). -/
def deflateStored (x : List Nat) : List Nat :=
  if _h : x.length ≤ 65535 then
    1 :: (le16 x.length ++ le16 (65535 - x.length) ++ x)
  else
    0 :: (le16 65535 ++ le16 0 ++ (x.take 65535 ++ deflateStored (x.drop 65535)))
termination_by x.length
decreasing_by
  simp only [List.length_drop]
  omega

/-- Parse the stored-block DEFLATE body: returns the decoded payload and the
remaining (trailer) bytes, or `none` on a malformed stream. -/
def inflateStored (s : List Nat) : Option (List Nat × List Nat) :=
  match s with
  | bfinal :: l0 :: l1 :: n0 :: n1 :: rest =>
    let len := l0 + 256 * l1
    if n0 + 256 * n1 ≠ 65535 - len then none
    else if rest.length < len then none
    else if bfinal = 1 then some (rest.take len, rest.drop len)
    else if bfinal = 0 then
      match inflateStored (rest.drop len) with
      | some (tail, rem) => some (rest.take len ++ tail, rem)
      | none => none
    else none
  | _ => none
termination_by s.length
decreasing_by
  simp only [List.length_drop, List.length_cons]
  omega

/-- Modelled from the spec: the archive path's `gzip.compress` (Python
stdlib, not in this repository) — the ten-byte gzip header (magic, method 8,
no flags, zero mtime, XFL 0, unknown OS), the stored-block DEFLATE body,
then CRC32 and input length modulo 2^32 as the trailer. -/
def gzipCompress (x : List Nat) : List Nat :=
  31 :: 139 :: 8 :: 0 :: 0 :: 0 :: 0 :: 0 :: 0 :: 255 ::
    (deflateStored x ++ le32 (crc32 x) ++ le32 (x.length % 4294967296))

/-- Modelled from the spec: the inverse transform `gzip.decompress` (Python
stdlib, not in this repository) — checks the header, inflates the body, and
verifies the CRC32/length trailer. -/
def gzipDecompress (s : List Nat) : Option (List Nat) :=
  match s with
  | id1 :: id2 :: cm :: flg :: _m0 :: _m1 :: _m2 :: _m3 :: _xfl :: _os :: rest =>
    if id1 = 31 ∧ id2 = 139 ∧ cm = 8 ∧ flg = 0 then
      match inflateStored rest with
      | some (payload, trailer) =>
        if trailer = le32 (crc32 payload) ++ le32 (payload.length % 4294967296) then
          some payload
        else none
      | none => none
    else none
  | _ => none

/-- The retention decision of line 118 of `function_app.py`:
`datetime.now(timezone.utc) - creation_time > timedelta(days=retention_days)`,
with durations in seconds. -/
def shouldArchive (now creationTime : Int) (retentionDays : Nat) : Bool :=
  decide (now - creationTime > (retentionDays : Int) * 86400)

/-- Translation of `process_single_file` (lines 98-140 of `function_app.py`).
The store state reached so far is threaded explicitly; the `try/except` that
wraps the body becomes the propagation of `false` together with the state at
the point the exception was raised.  Note the source stats, downloads and
deletes `source_blob` — the copy in the upload (intake) container. -/
def process_single_file (fs : List Fault) (st : Store) (file_name : String)
    (upload_container backup_container archive_container : String)
    (retention_days : Nat) (now : Int) : Bool × Store :=
  match copyBlob fs st upload_container file_name backup_container file_name now with
  | .error _ => (false, st)
  | .ok st1 =>
    match statBlob fs st1 upload_container file_name with
    | .error _ => (false, st1)
    | .ok props =>
      if shouldArchive now props.creationTime retention_days then
        match downloadBlob fs st1 upload_container file_name with
        | .error _ => (false, st1)
        | .ok content =>
          let compressed_content := gzipCompress content
          match uploadBlob fs st1 archive_container (file_name ++ ".gz")
              compressed_content now with
          | .error _ => (false, st1)
          | .ok st2 =>
            match deleteBlob fs st2 upload_container file_name with
            | .error _ => (false, st2)
            | .ok st3 => (true, st3)
      else (true, st1)

/-- The dispatch-and-collect loop of `backup_function` (lines 157-179): every
listed blob name is submitted to `process_single_file` and yields one
(name, success) outcome; `as_completed` consumes every future, so no outcome
is dropped.  The thread pool is linearised: outcomes are collected in listing
order and the store state is threaded through the invocations. -/
def runBatch (fs : List Fault) (st : Store) (names : List String)
    (upload_container backup_container archive_container : String)
    (retention_days : Nat) (now : Int) : List (String × Bool) × Store :=
  match names with
  | [] => ([], st)
  | n :: rest =>
    let r := process_single_file fs st n upload_container backup_container
      archive_container retention_days now
    let rs := runBatch fs r.2 rest upload_container backup_container
      archive_container retention_days now
    ((n, r.1) :: rs.1, rs.2)

/-- Translation of `backup_function` (lines 145-182): list the upload
container (the listing is passed in as `names`, the sequence
`[blob.name for blob in blobs]` the source builds its futures from) and
process every listed blob, collecting one outcome per listed name. -/
def backup_function (fs : List Fault) (st : Store) (names : List String)
    (upload_container backup_container archive_container : String)
    (retention_days : Nat) (now : Int) : List (String × Bool) × Store :=
  runBatch fs st names upload_container backup_container archive_container
    retention_days now

/-- Following the spec's words for the retention contract it fixes
(§4.4 step 2): the creation time for the retention decision is obtained by
statting the backup copy of the object, post-replication. -/
def shouldArchiveFromBackup (st : Store) (backup_container file_name : String)
    (retention_days : Nat) (now : Int) : Option Bool :=
  (st backup_container file_name).map
    (fun b => shouldArchive now b.creationTime retention_days)

/-- Following the claim's words for the retention predicate: the age
`now - createdAt` measured in whole days is strictly greater than the
retention window. -/
def shouldArchiveWholeDays (now creationTime : Int) (retentionDays : Nat) : Bool :=
  decide ((now - creationTime) / 86400 > (retentionDays : Int))

/-! Concrete inputs used by witnesses and counterexamples: the spec's
end-to-end scenario containers, a 30-day window, and an intake object
created at time 0 evaluated 40 days later. -/

/-- The intake (upload) container name. -/
def upC : String := "upload-cont"

/-- The backup container name. -/
def bkC : String := "backup-cont"

/-- The archive container name. -/
def arC : String := "archive-cont"

/-- A blob name. -/
def keyA : String := "a.txt"

/-- Another blob name. -/
def keyB : String := "b.txt"

/-- A blob created at time 0. -/
def blobOld : Blob := { content := [104, 105], creationTime := 0 }

/-- A second blob created at time 0. -/
def blobOld2 : Blob := { content := [119], creationTime := 0 }

/-- Evaluation instant: 40 days after time 0. -/
def nowT : Int := 40 * 86400

/-- A store holding only `b.txt` in the intake container. -/
def st0 : Store := putBlob emptyStore upC keyB blobOld

/-- A store holding `a.txt` and `b.txt` in the intake container. -/
def st1 : Store := putBlob (putBlob emptyStore upC keyA blobOld) upC keyB blobOld2

/-- A blob created one day before the evaluation instant. -/
def blobNew : Blob := { content := [110], creationTime := nowT - 86400 }

/-- A store holding only a freshly created `b.txt` in the intake container. -/
def stNew : Store := putBlob emptyStore upC keyB blobNew

/-! Helper lemmas. -/

/-- Inflating a deflated stream recovers the payload and leaves the
following bytes untouched. -/
lemma inflateStored_deflateStored (x suffix : List Nat) :
    inflateStored (deflateStored x ++ suffix) = some (x, suffix) := by
  by_cases h : x.length ≤ 65535
  · have hstream : deflateStored x ++ suffix =
        1 :: x.length % 256 :: x.length / 256 % 256 ::
          (65535 - x.length) % 256 :: (65535 - x.length) / 256 % 256 ::
          (x ++ suffix) := by
      rw [deflateStored, dif_pos h]
      simp [le16]
    have h1 : x.length % 256 + 256 * (x.length / 256 % 256) = x.length := by omega
    have h2 : (65535 - x.length) % 256 + 256 * ((65535 - x.length) / 256 % 256)
        = 65535 - x.length := by omega
    rw [hstream]
    simp only [inflateStored, h1, h2]
    simp [List.take_left, List.drop_left]
  · have hstream : deflateStored x ++ suffix =
        0 :: 255 :: 255 :: 0 :: 0 ::
          (x.take 65535 ++ (deflateStored (x.drop 65535) ++ suffix)) := by
      rw [deflateStored, dif_neg h]
      simp [le16]
    have htk : (x.take 65535).length = 65535 := by
      simp [List.length_take]
      omega
    rw [hstream]
    simp only [inflateStored]
    rw [if_pos trivial]
    have h4 : 255 + 256 * 255 = 65535 := by norm_num
    rw [h4, List.take_left' htk, List.drop_left' htk,
      inflateStored_deflateStored (x.drop 65535) suffix]
    simp
    omega
termination_by x.length
decreasing_by
  simp only [List.length_drop]
  omega

lemma putBlob_same (st : Store) (c k : String) (b : Blob) :
    putBlob st c k b c k = some b := by
  simp [putBlob]

lemma putBlob_other (st : Store) (c k : String) (b : Blob) (c' k' : String)
    (h : ¬(c' = c ∧ k' = k)) : putBlob st c k b c' k' = st c' k' := by
  simp [putBlob, h]

lemma delBlob_same (st : Store) (c k : String) : delBlob st c k c k = none := by
  simp [delBlob]

lemma delBlob_other (st : Store) (c k c' k' : String)
    (h : ¬(c' = c ∧ k' = k)) : delBlob st c k c' k' = st c' k' := by
  simp [delBlob, h]

/-- Fault lookup on a one-entry fault table that does not match the call. -/
lemma faulted_single_none (g : Fault) (op : StoreOp) (c k : String)
    (h : ¬(g.op = op ∧ g.container = c ∧ g.key = k)) :
    faulted [g] op c k = none := by
  simp [faulted, List.find?, h]

/-- Fault lookup on a one-entry fault table that matches the call. -/
lemma faulted_single_some (g : Fault) :
    faulted [g] g.op g.container g.key = some g.err := by
  simp [faulted, List.find?]

/-- Run of `process_single_file` when the copy to backup raises: the outcome
is `false` and the store is unchanged. -/
lemma process_copy_fault (fs : List Fault) (st : Store)
    (file up bk ar : String) (rd : Nat) (now : Int) (e : StoreErr)
    (hf : faulted fs .copy bk file = some e) :
    process_single_file fs st file up bk ar rd now = (false, st) := by
  simp only [process_single_file, copyBlob, hf]

/-- Run of `process_single_file` on a not-yet-aged object with no faults:
the object is replicated to backup and the outcome is `true`. -/
lemma process_notAged (fs : List Fault) (st : Store)
    (file up bk ar : String) (rd : Nat) (now : Int) (b : Blob)
    (hpres : st up file = some b)
    (h1 : faulted fs .copy bk file = none)
    (h2 : faulted fs .stat up file = none)
    (hub : up ≠ bk)
    (hna : shouldArchive now b.creationTime rd = false) :
    process_single_file fs st file up bk ar rd now
      = (true, putBlob st bk file { content := b.content, creationTime := now }) := by
  have hb : putBlob st bk file { content := b.content, creationTime := now } up file
      = some b := by
    rw [putBlob_other _ _ _ _ _ _ (by simp [hub])]
    exact hpres
  simp only [process_single_file, copyBlob, statBlob, h1, h2, hpres, hb, hna,
    Bool.false_eq_true, if_false]

/-- Run of `process_single_file` on an aged object with no faults: backup
copy written, compressed archive copy written, intake copy deleted, outcome
`true`. -/
lemma process_aged (fs : List Fault) (st : Store)
    (file up bk ar : String) (rd : Nat) (now : Int) (b : Blob)
    (hpres : st up file = some b)
    (h1 : faulted fs .copy bk file = none)
    (h2 : faulted fs .stat up file = none)
    (h3 : faulted fs .download up file = none)
    (h4 : faulted fs .upload ar (file ++ ".gz") = none)
    (h5 : faulted fs .delete up file = none)
    (hub : up ≠ bk) (hua : up ≠ ar)
    (ha : shouldArchive now b.creationTime rd = true) :
    process_single_file fs st file up bk ar rd now
      = (true,
          delBlob
            (putBlob (putBlob st bk file { content := b.content, creationTime := now })
              ar (file ++ ".gz")
              { content := gzipCompress b.content, creationTime := now })
            up file) := by
  have hb : putBlob st bk file { content := b.content, creationTime := now } up file
      = some b := by
    rw [putBlob_other _ _ _ _ _ _ (by simp [hub])]
    exact hpres
  have hb2 : putBlob (putBlob st bk file { content := b.content, creationTime := now })
      ar (file ++ ".gz") { content := gzipCompress b.content, creationTime := now }
      up file = some b := by
    rw [putBlob_other _ _ _ _ _ _ (by simp [hua]), hb]
  simp only [process_single_file, copyBlob, statBlob, downloadBlob, uploadBlob,
    deleteBlob, h1, h2, h3, h4, h5, hpres, hb, hb2, ha, if_true]

/-- Run of `process_single_file` on an aged object when the archive upload
raises: the outcome is `false` and the store state is exactly the one
reached after the replicate step — no delete is performed. -/
lemma process_upload_fault (fs : List Fault) (st : Store)
    (file up bk ar : String) (rd : Nat) (now : Int) (b : Blob) (e : StoreErr)
    (hpres : st up file = some b)
    (h1 : faulted fs .copy bk file = none)
    (h2 : faulted fs .stat up file = none)
    (h3 : faulted fs .download up file = none)
    (hf : faulted fs .upload ar (file ++ ".gz") = some e)
    (hub : up ≠ bk)
    (ha : shouldArchive now b.creationTime rd = true) :
    process_single_file fs st file up bk ar rd now
      = (false, putBlob st bk file { content := b.content, creationTime := now }) := by
  have hb : putBlob st bk file { content := b.content, creationTime := now } up file
      = some b := by
    rw [putBlob_other _ _ _ _ _ _ (by simp [hub])]
    exact hpres
  simp only [process_single_file, copyBlob, statBlob, downloadBlob, uploadBlob,
    h1, h2, h3, hf, hpres, hb, ha, if_true]

/-- Run of `process_single_file` on an aged object when the delete at the
retire step raises (with any error, `NotFound` included): the outcome is
`false`, with backup and archive copies written and the intake copy still in
place. -/
lemma process_delete_fault (fs : List Fault) (st : Store)
    (file up bk ar : String) (rd : Nat) (now : Int) (b : Blob) (e : StoreErr)
    (hpres : st up file = some b)
    (h1 : faulted fs .copy bk file = none)
    (h2 : faulted fs .stat up file = none)
    (h3 : faulted fs .download up file = none)
    (h4 : faulted fs .upload ar (file ++ ".gz") = none)
    (hf : faulted fs .delete up file = some e)
    (hub : up ≠ bk)
    (ha : shouldArchive now b.creationTime rd = true) :
    process_single_file fs st file up bk ar rd now
      = (false,
          putBlob (putBlob st bk file { content := b.content, creationTime := now })
            ar (file ++ ".gz")
            { content := gzipCompress b.content, creationTime := now }) := by
  have hb : putBlob st bk file { content := b.content, creationTime := now } up file
      = some b := by
    rw [putBlob_other _ _ _ _ _ _ (by simp [hub])]
    exact hpres
  simp only [process_single_file, copyBlob, statBlob, downloadBlob, uploadBlob,
    deleteBlob, h1, h2, h3, h4, hf, hpres, hb, ha, if_true]

/-- On a faultless run over a present object, `process_single_file` reports
success and leaves every upload-container blob other than the processed one
unchanged. -/
lemma process_ok (fs : List Fault) (st : Store)
    (file up bk ar : String) (rd : Nat) (now : Int) (b : Blob)
    (hpres : st up file = some b)
    (h1 : faulted fs .copy bk file = none)
    (h2 : faulted fs .stat up file = none)
    (h3 : faulted fs .download up file = none)
    (h4 : faulted fs .upload ar (file ++ ".gz") = none)
    (h5 : faulted fs .delete up file = none)
    (hub : up ≠ bk) (hua : up ≠ ar) :
    (process_single_file fs st file up bk ar rd now).1 = true ∧
    ∀ k, k ≠ file → (process_single_file fs st file up bk ar rd now).2 up k = st up k := by
  by_cases ha : shouldArchive now b.creationTime rd = true
  · rw [process_aged fs st file up bk ar rd now b hpres h1 h2 h3 h4 h5 hub hua ha]
    refine ⟨rfl, fun k hk => ?_⟩
    dsimp only
    rw [delBlob_other _ _ _ _ _ (by simp [hk]),
      putBlob_other _ _ _ _ _ _ (by simp [hua]),
      putBlob_other _ _ _ _ _ _ (by simp [hub])]
  · rw [process_notAged fs st file up bk ar rd now b hpres h1 h2 hub
      (by simpa using ha)]
    refine ⟨rfl, fun k hk => ?_⟩
    dsimp only
    rw [putBlob_other _ _ _ _ _ _ (by simp [hub])]

/-- Batch run with a single injected fault, on the copy step of object `K`:
the outcome list records success for every other listed object and failure
for `K`. -/
lemma runBatch_single_fault (K up bk ar : String) (rd : Nat) (now : Int)
    (hub : up ≠ bk) (hua : up ≠ ar) :
    ∀ (names : List String) (st : Store), names.Nodup →
      (∀ n ∈ names, (st up n).isSome) →
      (runBatch [⟨.copy, bk, K, .transient⟩] st names up bk ar rd now).1
        = names.map (fun n => (n, !(n == K))) := by
  intro names
  induction names with
  | nil =>
    intro st _ _
    simp [runBatch]
  | cons n rest ih =>
    intro st hnd hpres
    have hndr : rest.Nodup := (List.nodup_cons.mp hnd).2
    have hnmem : n ∉ rest := (List.nodup_cons.mp hnd).1
    by_cases hK : n = K
    · subst hK
      have hstep : process_single_file [⟨.copy, bk, n, .transient⟩] st n up bk ar
          rd now = (false, st) :=
        process_copy_fault _ _ _ _ _ _ _ _ .transient
          (faulted_single_some ⟨.copy, bk, n, .transient⟩)
      simp only [runBatch, hstep]
      rw [ih st hndr (fun m hm => hpres m (List.mem_cons_of_mem _ hm))]
      simp
    · have hne : K ≠ n := fun h => hK h.symm
      have hcopy : faulted [⟨.copy, bk, K, .transient⟩] .copy bk n = none :=
        faulted_single_none _ _ _ _ (by simp [hne])
      have hstat : faulted [⟨.copy, bk, K, .transient⟩] .stat up n = none :=
        faulted_single_none _ _ _ _ (by simp)
      have hdl : faulted [⟨.copy, bk, K, .transient⟩] .download up n = none :=
        faulted_single_none _ _ _ _ (by simp)
      have hupl : faulted [⟨.copy, bk, K, .transient⟩] .upload ar (n ++ ".gz")
          = none := faulted_single_none _ _ _ _ (by simp)
      have hdel : faulted [⟨.copy, bk, K, .transient⟩] .delete up n = none :=
        faulted_single_none _ _ _ _ (by simp)
      obtain ⟨b, hb⟩ := Option.isSome_iff_exists.mp (hpres n (by simp))
      have hok := process_ok [⟨.copy, bk, K, .transient⟩] st n up bk ar rd now b
        hb hcopy hstat hdl hupl hdel hub hua
      have hrest : ∀ m ∈ rest,
          (((process_single_file [⟨.copy, bk, K, .transient⟩] st n up bk ar
            rd now).2) up m).isSome := by
        intro m hm
        rw [hok.2 m (fun h => hnmem (h ▸ hm))]
        exact hpres m (List.mem_cons_of_mem _ hm)
      have hbeq : (n == K) = false := beq_eq_false_iff_ne.mpr hK
      simp only [runBatch]
      rw [ih _ hndr hrest, hok.1]
      simp [hbeq]

/-- The batch loop records the listed names, in order, as the first
components of its outcome list. -/
lemma runBatch_map_fst (fs : List Fault) (up bk ar : String) (rd : Nat)
    (now : Int) :
    ∀ (names : List String) (st : Store),
      ((runBatch fs st names up bk ar rd now).1).map Prod.fst = names := by
  intro names
  induction names with
  | nil =>
    intro st
    simp [runBatch]
  | cons n rest ih =>
    intro st
    simp only [runBatch, List.map_cons]
    rw [ih]

/-! Claim theorems. -/

/-- C6: for every byte sequence, including the empty one, decompressing the
result of the compression transform used on the archive path yields the
original sequence. -/
theorem c6_compress_roundtrip (x : List Nat) :
    gzipDecompress (gzipCompress x) = some x := by
  simp only [gzipCompress, gzipDecompress]
  rw [List.append_assoc, inflateStored_deflateStored]
  simp

/-- C3 counterexample: at age one day plus one second and a one-day window,
the code's retention predicate fires although the age in whole days (one) is
not strictly greater than the window (one) — the predicate is not the
whole-days comparison the claim states. -/
theorem c3_counterexample :
    shouldArchive 86401 0 1 = true ∧ shouldArchiveWholeDays 86401 0 1 = false := by
  decide

/-- C3 (amended): the retention predicate compares the exact age
`now - createdAt` against `windowDays` days; hence an object aged exactly
`windowDays` days is not archived, one aged exactly `windowDays + 1` days
is, and with a zero window any positive age is archived. -/
theorem c3_retention_boundary (rd : Nat) (now created : Int) :
    shouldArchive (created + (rd : Int) * 86400) created rd = false ∧
    shouldArchive (created + ((rd : Int) + 1) * 86400) created rd = true ∧
    (0 < now - created → shouldArchive now created 0 = true) := by
  refine ⟨?_, ?_, fun h => ?_⟩
  · simp only [shouldArchive, decide_eq_false_iff_not]
    omega
  · simp only [shouldArchive, decide_eq_true_eq]
    omega
  · simp only [shouldArchive, decide_eq_true_eq]
    omega

/-- Witness for `c3_retention_boundary` at a concrete positive age. -/
theorem c3_retention_boundary_witness :
    0 < (5 : Int) - 0 ∧ shouldArchive 5 0 0 = true :=
  ⟨by decide, (c3_retention_boundary 0 5 0).2.2 (by decide)⟩

/-- C1 counterexample: a successful archiving run on an aged `b.txt` leaves
the backup tier still holding the object — the retire step deleted the
intake copy instead, so the claim's final state (backup no longer holds the
object) is false. -/
theorem c1_counterexample :
    (process_single_file [] st0 keyB upC bkC arC 30 nowT).1 = true ∧
    (process_single_file [] st0 keyB upC bkC arC 30 nowT).2 arC (keyB ++ ".gz")
      ≠ none ∧
    (process_single_file [] st0 keyB upC bkC arC 30 nowT).2 bkC keyB
      = some { content := blobOld.content, creationTime := nowT } ∧
    (process_single_file [] st0 keyB upC bkC arC 30 nowT).2 upC keyB = none := by
  decide

/-- C1 (amended): after the archive upload succeeds, the retire step deletes
the intake copy of the object, not the backup copy: on a successful
archiving run the object exists in the archive tier under
`<original-key>.gz`, the backup tier still holds it, and the intake tier no
longer does. -/
theorem c1_retire_deletes_intake (fs : List Fault) (st : Store)
    (file up bk ar : String) (rd : Nat) (now : Int) (b : Blob)
    (hpres : st up file = some b)
    (h1 : faulted fs .copy bk file = none)
    (h2 : faulted fs .stat up file = none)
    (h3 : faulted fs .download up file = none)
    (h4 : faulted fs .upload ar (file ++ ".gz") = none)
    (h5 : faulted fs .delete up file = none)
    (hub : up ≠ bk) (hua : up ≠ ar) (hba : bk ≠ ar)
    (ha : shouldArchive now b.creationTime rd = true) :
    (process_single_file fs st file up bk ar rd now).1 = true ∧
    (process_single_file fs st file up bk ar rd now).2 ar (file ++ ".gz")
      = some { content := gzipCompress b.content, creationTime := now } ∧
    (process_single_file fs st file up bk ar rd now).2 bk file
      = some { content := b.content, creationTime := now } ∧
    (process_single_file fs st file up bk ar rd now).2 up file = none := by
  rw [process_aged fs st file up bk ar rd now b hpres h1 h2 h3 h4 h5 hub hua ha]
  refine ⟨rfl, ?_, ?_, ?_⟩ <;> dsimp only
  · rw [delBlob_other _ _ _ _ _ (by simp [Ne.symm hua]), putBlob_same]
  · rw [delBlob_other _ _ _ _ _ (by simp [Ne.symm hub]),
      putBlob_other _ _ _ _ _ _ (by simp [hba]), putBlob_same]
  · exact delBlob_same _ _ _

/-- Witness for `c1_retire_deletes_intake` on the concrete aged store. -/
theorem c1_retire_deletes_intake_witness :
    (process_single_file [] st0 keyB upC bkC arC 30 nowT).2 upC keyB = none :=
  (c1_retire_deletes_intake [] st0 keyB upC bkC arC 30 nowT blobOld (by decide)
    (by decide) (by decide) (by decide) (by decide) (by decide) (by decide)
    (by decide) (by decide) (by decide)).2.2.2

/-- C2 counterexample: on an aged intake object the run archives it even
though statting the (post-replication) backup copy, whose creation time is
the replication instant, says not to archive — so the creation time used is
the intake copy's, not the backup copy's. -/
theorem c2_counterexample :
    (process_single_file [] st0 keyB upC bkC arC 30 nowT).2 arC (keyB ++ ".gz")
      ≠ none ∧
    shouldArchiveFromBackup
      (process_single_file [] st0 keyB upC bkC arC 30 nowT).2 bkC keyB 30 nowT
      = some false := by
  decide

/-- C2 (amended): the retention decision is driven by the intake copy's
creation time: a faultless run archives the object (creates the archive-tier
`.gz` entry) exactly when the intake blob's creation time is past the
window. -/
theorem c2_stat_intake (fs : List Fault) (st : Store)
    (file up bk ar : String) (rd : Nat) (now : Int) (b : Blob)
    (hpres : st up file = some b)
    (h1 : faulted fs .copy bk file = none)
    (h2 : faulted fs .stat up file = none)
    (h3 : faulted fs .download up file = none)
    (h4 : faulted fs .upload ar (file ++ ".gz") = none)
    (h5 : faulted fs .delete up file = none)
    (hub : up ≠ bk) (hua : up ≠ ar) (hba : bk ≠ ar)
    (har : st ar (file ++ ".gz") = none) :
    ((process_single_file fs st file up bk ar rd now).2 ar (file ++ ".gz") ≠ none)
      ↔ shouldArchive now b.creationTime rd = true := by
  by_cases ha : shouldArchive now b.creationTime rd = true
  · rw [process_aged fs st file up bk ar rd now b hpres h1 h2 h3 h4 h5 hub hua ha]
    dsimp only
    rw [delBlob_other _ _ _ _ _ (by simp [Ne.symm hua]), putBlob_same]
    simp [ha]
  · rw [process_notAged fs st file up bk ar rd now b hpres h1 h2 hub
      (by simpa using ha)]
    dsimp only
    rw [putBlob_other _ _ _ _ _ _ (by simp [Ne.symm hba]), har]
    simpa using ha

/-- Witness for `c2_stat_intake` on the concrete aged store. -/
theorem c2_stat_intake_witness :
    ((process_single_file [] st0 keyB upC bkC arC 30 nowT).2 arC (keyB ++ ".gz")
      ≠ none)
      ↔ shouldArchive nowT blobOld.creationTime 30 = true :=
  c2_stat_intake [] st0 keyB upC bkC arC 30 nowT blobOld (by decide) (by decide)
    (by decide) (by decide) (by decide) (by decide) (by decide) (by decide)
    (by decide) (by decide)

/-- C4 counterexample: a `NotFound` raised by the delete at the retire step
makes the run report failure (`false`), although the archive copy was
already written — the object does not reach a success outcome, so `NotFound`
on delete is not treated as success. -/
theorem c4_counterexample :
    (process_single_file [⟨.delete, upC, keyB, .notFound⟩] st0 keyB upC bkC arC
      30 nowT).1 = false ∧
    (process_single_file [⟨.delete, upC, keyB, .notFound⟩] st0 keyB upC bkC arC
      30 nowT).2 arC (keyB ++ ".gz") ≠ none := by
  decide

/-- C4 (amended): a `NotFound` raised by the delete at the retire step is
caught like any other error: the processor reports failure even though the
archive copy has already been written, and the intake copy is left in
place. -/
theorem c4_notfound_delete_fails (fs : List Fault) (st : Store)
    (file up bk ar : String) (rd : Nat) (now : Int) (b : Blob)
    (hpres : st up file = some b)
    (h1 : faulted fs .copy bk file = none)
    (h2 : faulted fs .stat up file = none)
    (h3 : faulted fs .download up file = none)
    (h4 : faulted fs .upload ar (file ++ ".gz") = none)
    (hf : faulted fs .delete up file = some .notFound)
    (hub : up ≠ bk) (hua : up ≠ ar)
    (ha : shouldArchive now b.creationTime rd = true) :
    (process_single_file fs st file up bk ar rd now).1 = false ∧
    (process_single_file fs st file up bk ar rd now).2 ar (file ++ ".gz")
      = some { content := gzipCompress b.content, creationTime := now } ∧
    (process_single_file fs st file up bk ar rd now).2 up file = some b := by
  rw [process_delete_fault fs st file up bk ar rd now b .notFound hpres h1 h2 h3
    h4 hf hub ha]
  refine ⟨rfl, ?_, ?_⟩ <;> dsimp only
  · exact putBlob_same _ _ _ _
  · rw [putBlob_other _ _ _ _ _ _ (by simp [hua]),
      putBlob_other _ _ _ _ _ _ (by simp [hub])]
    exact hpres

/-- Witness for `c4_notfound_delete_fails` on the concrete aged store. -/
theorem c4_notfound_delete_fails_witness :
    (process_single_file [⟨.delete, upC, keyB, .notFound⟩] st0 keyB upC bkC arC
      30 nowT).1 = false :=
  (c4_notfound_delete_fails [⟨.delete, upC, keyB, .notFound⟩] st0 keyB upC bkC
    arC 30 nowT blobOld (by decide) (by decide) (by decide) (by decide)
    (by decide) (by decide) (by decide) (by decide) (by decide)).1

/-- C7: when the archive upload raises, the outcome is failure, the store is
exactly the state reached after the replicate step (no delete is performed),
the backup copy is intact, the intake copy is intact, and every location
other than the backup copy is unchanged. -/
theorem c7_upload_fault_leaves_backup (fs : List Fault) (st : Store)
    (file up bk ar : String) (rd : Nat) (now : Int) (b : Blob) (e : StoreErr)
    (hpres : st up file = some b)
    (h1 : faulted fs .copy bk file = none)
    (h2 : faulted fs .stat up file = none)
    (h3 : faulted fs .download up file = none)
    (hf : faulted fs .upload ar (file ++ ".gz") = some e)
    (hub : up ≠ bk)
    (ha : shouldArchive now b.creationTime rd = true) :
    process_single_file fs st file up bk ar rd now
      = (false, putBlob st bk file { content := b.content, creationTime := now }) ∧
    (process_single_file fs st file up bk ar rd now).2 bk file
      = some { content := b.content, creationTime := now } ∧
    (process_single_file fs st file up bk ar rd now).2 up file = some b ∧
    ∀ c k, ¬(c = bk ∧ k = file) →
      (process_single_file fs st file up bk ar rd now).2 c k = st c k := by
  rw [process_upload_fault fs st file up bk ar rd now b e hpres h1 h2 h3 hf hub ha]
  refine ⟨rfl, ?_, ?_, fun c k hck => ?_⟩ <;> dsimp only
  · exact putBlob_same _ _ _ _
  · rw [putBlob_other _ _ _ _ _ _ (by simp [hub])]
    exact hpres
  · exact putBlob_other _ _ _ _ _ _ hck

/-- Witness for `c7_upload_fault_leaves_backup`: an injected transient fault
on the archive upload of the concrete aged object. -/
theorem c7_upload_fault_leaves_backup_witness :
    (process_single_file [⟨.upload, arC, keyB ++ ".gz", .transient⟩] st0 keyB
      upC bkC arC 30 nowT).2 upC keyB = some blobOld :=
  (c7_upload_fault_leaves_backup [⟨.upload, arC, keyB ++ ".gz", .transient⟩]
    st0 keyB upC bkC arC 30 nowT blobOld .transient (by decide) (by decide)
    (by decide) (by decide) (by decide) (by decide) (by decide)).2.2.1

/-- C10: on a not-yet-aged object the processor only replicates to backup
and reports success: the result is exactly the post-replicate state, every
location other than the backup copy (the intake copy and the whole archive
container included) is unchanged, and the returned success value is the very
value returned when an object is archived. -/
theorem c10_not_aged_replicate_only (fs : List Fault) (st : Store)
    (file up bk ar : String) (rd : Nat) (now : Int) (b : Blob)
    (hpres : st up file = some b)
    (h1 : faulted fs .copy bk file = none)
    (h2 : faulted fs .stat up file = none)
    (h3 : faulted fs .download up file = none)
    (h4 : faulted fs .upload ar (file ++ ".gz") = none)
    (h5 : faulted fs .delete up file = none)
    (hub : up ≠ bk) (hua : up ≠ ar)
    (hna : shouldArchive now b.creationTime rd = false)
    (st2 : Store) (b2 : Blob)
    (hpres2 : st2 up file = some b2)
    (ha2 : shouldArchive now b2.creationTime rd = true) :
    process_single_file fs st file up bk ar rd now
      = (true, putBlob st bk file { content := b.content, creationTime := now }) ∧
    (∀ c k, ¬(c = bk ∧ k = file) →
      (process_single_file fs st file up bk ar rd now).2 c k = st c k) ∧
    (process_single_file fs st2 file up bk ar rd now).1
      = (process_single_file fs st file up bk ar rd now).1 := by
  rw [process_notAged fs st file up bk ar rd now b hpres h1 h2 hub hna]
  refine ⟨rfl, fun c k hck => ?_, ?_⟩
  · dsimp only
    exact putBlob_other _ _ _ _ _ _ hck
  · rw [process_aged fs st2 file up bk ar rd now b2 hpres2 h1 h2 h3 h4 h5 hub
      hua ha2]

/-- Witness for `c10_not_aged_replicate_only`: a fresh `b.txt` is only
replicated while the aged store's run returns the same success value. -/
theorem c10_not_aged_replicate_only_witness :
    (process_single_file [] st0 keyB upC bkC arC 30 nowT).1
      = (process_single_file [] stNew keyB upC bkC arC 30 nowT).1 :=
  (c10_not_aged_replicate_only [] stNew keyB upC bkC arC 30 nowT blobNew
    (by decide) (by decide) (by decide) (by decide) (by decide) (by decide)
    (by decide) (by decide) (by decide) st0 blobOld (by decide) (by decide)).2.2

/-- C5: with exactly one injected store failure — the replicate copy of
object `K` — the batch never propagates the error: every listed object gets
an outcome, every object other than `K` reaches its success outcome, and
exactly one failure outcome is recorded. -/
theorem c5_single_fault_isolation (names : List String) (K : String)
    (st : Store) (up bk ar : String) (rd : Nat) (now : Int)
    (hnd : names.Nodup) (hK : K ∈ names)
    (hpres : ∀ n ∈ names, (st up n).isSome)
    (hub : up ≠ bk) (hua : up ≠ ar) :
    (backup_function [⟨.copy, bk, K, .transient⟩] st names up bk ar rd now).1
      = names.map (fun n => (n, !(n == K))) ∧
    ((backup_function [⟨.copy, bk, K, .transient⟩] st names up bk ar rd
      now).1.countP (fun p => p.2 == false)) = 1 := by
  have hmap : (backup_function [⟨.copy, bk, K, .transient⟩] st names up bk ar rd
      now).1 = names.map (fun n => (n, !(n == K))) :=
    runBatch_single_fault K up bk ar rd now hub hua names st hnd hpres
  refine ⟨hmap, ?_⟩
  rw [hmap, List.countP_map]
  have hfun : ((fun p : String × Bool => p.2 == false) ∘ fun n => (n, !(n == K)))
      = fun n => n == K := by
    funext n
    by_cases h : n = K <;> simp [h]
  rw [hfun]
  have hc := List.count_eq_one_of_mem hnd hK
  simpa [List.count] using hc

/-- Witness for `c5_single_fault_isolation`: a two-object batch where the
replicate copy of `b.txt` fails. -/
theorem c5_single_fault_isolation_witness :
    (backup_function [⟨.copy, bkC, keyB, .transient⟩] st1 [keyA, keyB] upC bkC
      arC 30 nowT).1 = [(keyA, true), (keyB, false)] := by
  have h := (c5_single_fault_isolation [keyA, keyB] keyB st1 upC bkC arC 30 nowT
    (by decide) (by decide) (by decide) (by decide) (by decide)).1
  rw [h]
  decide

/-- C8: every object produced by the listing yields exactly one outcome in
the batch result, in listing order — no listed object is dropped and none is
dispatched twice. -/
theorem c8_one_outcome_per_listed (fs : List Fault) (st : Store)
    (names : List String) (up bk ar : String) (rd : Nat) (now : Int) :
    ((backup_function fs st names up bk ar rd now).1).map Prod.fst = names :=
  runBatch_map_fst fs up bk ar rd now names st

end FileBackup
